import Mathlib

/-!
Verification development for the fastmcp-ts decorator-based MCP server core.

The definitions below are a shallow embedding of `src/doc-utils.ts` and
`src/index.ts`:
  * JavaScript runtime values are modelled by `JsValue` (numbers restricted to
    exact integers plus NaN, which covers every value the verified properties
    exercise; floating point formatting is out of scope).
  * zod schemas are modelled by `ZSchema` and `zparse` (object schemas strip
    unknown keys and require non-optional fields, as zod v3 does).
  * The doc-comment parser `parseRawDocComment` mirrors the source loop
    line by line, including the `/**` start detection, `*/` termination,
    the `^\s*\*\s?` strip, and the `@param` / `@returns` regexes.
  * The decorator metadata resolution (`resolveToolMeta`), the process-wide
    registries, `register`, and the request handlers for tool calls and
    resource reads mirror `index.ts`.
Whitespace and word-character classes model the ASCII part of the JS `\s` and
`\w` classes, which is exact for all inputs considered here.
-/

namespace Fastmcp

/-- Model of a JS number as used by the tool layer: exact integers or NaN. -/
inductive JsNum where
  | int (i : Int)
  | nan
  deriving Repr

/-- Model of a JavaScript runtime value. Objects and arrays are field/element
lists; functions never flow through the verified paths as data. -/
inductive JsValue where
  | vNull
  | vUndefined
  | vBool (b : Bool)
  | vNum (n : JsNum)
  | vStr (s : String)
  | vObj (fields : List (String × JsValue))
  | vArr (elems : List JsValue)
  deriving Repr

/-- Model of the zod schemas the source constructs and inspects:
`z.any()`, `z.string()`, `z.number()`, `z.boolean()`, `z.array(...)`,
`z.optional(...)`, `z.object(shape)`. -/
inductive ZSchema where
  | any
  | str
  | num
  | bool
  | arr (elem : ZSchema)
  | opt (s : ZSchema)
  | obj (shape : List (String × ZSchema))
  deriving Repr

/-- The check `value instanceof z.ZodOptional` used by `zodToJsonSchema` to
decide that a field is not required. -/
def isOptionalSchema : ZSchema → Bool
  | .opt _ => true
  | _ => false

/-- First-match association lookup, the model of reading a property of a JS
object represented as a field list. -/
def jsLookup (k : String) : List (String × JsValue) → Option JsValue
  | [] => none
  | (k2, v) :: rest => if k2 = k then some v else jsLookup k rest

/-- JS truthiness for the values of our model. -/
def jsTruthy : JsValue → Bool
  | .vNull => false
  | .vUndefined => false
  | .vBool b => b
  | .vNum (.int i) => if i = 0 then false else true
  | .vNum .nan => false
  | .vStr s => if s = "" then false else true
  | .vObj _ => true
  | .vArr _ => true

/-- The test `typeof x === 'object'` (true for objects, arrays and null). -/
def jsTypeofIsObject : JsValue → Bool
  | .vObj _ => true
  | .vArr _ => true
  | .vNull => true
  | _ => false

/-- Length of `Object.keys(x)`. JS objects cannot carry duplicate keys, so for
object values the field-list length is the key count. -/
def jsKeysLength : JsValue → Nat
  | .vObj fs => fs.length
  | .vArr es => es.length
  | _ => 0

/-- JSON string escaping for the characters that can occur in our inputs
(control characters below 0x20 other than these would be escaped as \uXXXX by
JSON.stringify; they do not occur here). -/
def jsonEscapeChar (c : Char) : String :=
  if c = '"' then "\\\""
  else if c = '\\' then "\\\\"
  else if c = '\n' then "\\n"
  else if c = '\r' then "\\r"
  else if c = '\t' then "\\t"
  else String.singleton c

/-- JSON quoting of a string value. -/
def jsonQuote (s : String) : String :=
  "\"" ++ String.join (s.data.map jsonEscapeChar) ++ "\""

mutual

/-- Model of `JSON.stringify` on a defined value. `undefined` only reaches this
function as an array element, where JSON renders it as `null`; NaN also
serializes as `null`. -/
def jsonStr : JsValue → String
  | .vNull => "null"
  | .vUndefined => "null"
  | .vBool b => if b then "true" else "false"
  | .vNum (.int i) => toString i
  | .vNum .nan => "null"
  | .vStr s => jsonQuote s
  | .vObj fs => "\x7b" ++ String.intercalate "," (jsonFieldItems fs) ++ "\x7d"
  | .vArr es => "[" ++ String.intercalate "," (jsonElemItems es) ++ "]"

/-- Serialized `"key":value` items of an object; fields holding `undefined`
are omitted, as JSON.stringify does. -/
def jsonFieldItems : List (String × JsValue) → List String
  | [] => []
  | (k, v) :: rest =>
    match v with
    | .vUndefined => jsonFieldItems rest
    | _ => (jsonQuote k ++ ":" ++ jsonStr v) :: jsonFieldItems rest

/-- Serialized items of an array. -/
def jsonElemItems : List JsValue → List String
  | [] => []
  | v :: rest => jsonStr v :: jsonElemItems rest

end

/-- `JSON.stringify` at top level: `undefined` yields no string at all. -/
def jsonStringifyTop : JsValue → Option String
  | .vUndefined => none
  | v => some (jsonStr v)

mutual

/-- Model of the JS `String(x)` conversion, the fallback when serialization
fails. -/
def jsToString : JsValue → String
  | .vNull => "null"
  | .vUndefined => "undefined"
  | .vBool b => if b then "true" else "false"
  | .vNum (.int i) => toString i
  | .vNum .nan => "NaN"
  | .vStr s => s
  | .vObj _ => "[object Object]"
  | .vArr es => String.intercalate "," (jsArrItems es)

/-- Items of `Array.prototype.toString`; null/undefined elements render
empty. -/
def jsArrItems : List JsValue → List String
  | [] => []
  | .vNull :: rest => "" :: jsArrItems rest
  | .vUndefined :: rest => "" :: jsArrItems rest
  | v :: rest => jsToString v :: jsArrItems rest

end

mutual

/-- Model of `schema.parse(value)` for the zod shapes the source builds.
Failures carry a message, standing for the thrown ZodError. -/
def zparse : ZSchema → JsValue → Except String JsValue
  | .any, v => .ok v
  | .str, v =>
    match v with
    | .vStr s => .ok (.vStr s)
    | _ => .error "Expected string"
  | .num, v =>
    match v with
    | .vNum (.int i) => .ok (.vNum (.int i))
    | .vNum .nan => .error "Expected number, received nan"
    | _ => .error "Expected number"
  | .bool, v =>
    match v with
    | .vBool b => .ok (.vBool b)
    | _ => .error "Expected boolean"
  | .opt s, v =>
    match v with
    | .vUndefined => .ok .vUndefined
    | _ => zparse s v
  | .arr e, v =>
    match v with
    | .vArr es =>
      match zparseElems e es with
      | .ok ps => .ok (.vArr ps)
      | .error m => .error m
    | _ => .error "Expected array"
  | .obj shape, v =>
    match v with
    | .vObj fs =>
      match zparseFields shape fs with
      | .ok ps => .ok (.vObj ps)
      | .error m => .error m
    | _ => .error "Expected object"

/-- Element-wise parse of an array value. -/
def zparseElems (e : ZSchema) : List JsValue → Except String (List JsValue)
  | [] => .ok []
  | v :: rest =>
    match zparse e v with
    | .error m => .error m
    | .ok pv =>
      match zparseElems e rest with
      | .error m => .error m
      | .ok prest => .ok (pv :: prest)

/-- Field-wise parse of an object value against a shape: unknown keys are
stripped, missing non-optional fields are required, optional missing fields
are omitted (zod v3 object semantics). -/
def zparseFields : List (String × ZSchema) → List (String × JsValue) → Except String (List (String × JsValue))
  | [], _ => .ok []
  | (k, sch) :: rest, fs =>
    match (jsLookup k fs).getD .vUndefined with
    | .vUndefined =>
      if isOptionalSchema sch then zparseFields rest fs
      else .error ("Required: " ++ k)
    | v =>
      match zparse sch v with
      | .error m => .error m
      | .ok pv =>
        match zparseFields rest fs with
        | .error m => .error m
        | .ok prest => .ok ((k, pv) :: prest)

end

/-! Character-level helpers mirroring the JS string operations used by
`doc-utils.ts`. -/

/-- ASCII part of the JS whitespace class `\s`, exact for the inputs here. -/
def jsIsSpace (c : Char) : Bool :=
  c = ' ' || c = '\t' || c = '\n' || c = '\r' || c = '\x0b' || c = '\x0c'

/-- The JS word-character class `\w` = [A-Za-z0-9_]. -/
def isWordChar (c : Char) : Bool :=
  (decide (97 ≤ c.toNat ∧ c.toNat ≤ 122)) ||
  (decide (65 ≤ c.toNat ∧ c.toNat ≤ 90)) ||
  (decide (48 ≤ c.toNat ∧ c.toNat ≤ 57)) ||
  c = '_'

/-- `String.prototype.indexOf` for a needle, on character lists (first index,
`none` for -1). -/
def findSub (needle : List Char) : List Char → Option Nat
  | [] => if needle.isEmpty then some 0 else none
  | c :: rest =>
    if needle.isPrefixOf (c :: rest) then some 0
    else (findSub needle rest).map (fun n => n + 1)

/-- Case-sensitive substring containment. -/
def containsSub (hay needle : List Char) : Bool :=
  (findSub needle hay).isSome

/-- ASCII lower-casing of one character (the patterns matched
case-insensitively here are all ASCII words). -/
def jsToLowerChar (c : Char) : Char :=
  if 65 ≤ c.toNat ∧ c.toNat ≤ 90 then Char.ofNat (c.toNat + 32) else c

/-- The test `/pat/i.test(desc)` for a literal pattern: case-insensitive
substring match. -/
def hasCI (desc : String) (pat : String) : Bool :=
  containsSub (desc.data.map jsToLowerChar) (pat.data.map jsToLowerChar)

/-- `String.prototype.trim` on character lists (ASCII whitespace). -/
def jsTrimCh (cs : List Char) : List Char :=
  ((cs.dropWhile jsIsSpace).reverse.dropWhile jsIsSpace).reverse

/-- `line.replace(/^\s*\*\s?/, '')`: strip leading whitespace, one `*`, and at
most one following whitespace character; if there is no `*`, the line is kept
unchanged. -/
def stripStarPrefix (cs : List Char) : List Char :=
  match cs.dropWhile jsIsSpace with
  | '*' :: rest =>
    match rest with
    | c :: rest2 => if jsIsSpace c then rest2 else c :: rest2
    | [] => []
  | _ => cs

/-- `raw.split(/\r?\n/)`: split on newlines, dropping a `\r` that immediately
precedes the `\n`. The accumulator holds the current line reversed. -/
def splitJsLinesAux : List Char → List Char → List (List Char)
  | [], acc => [acc.reverse]
  | c :: rest, acc =>
    if c = '\n' then
      (match acc with
       | '\r' :: a => a.reverse
       | _ => acc.reverse) :: splitJsLinesAux rest []
    else splitJsLinesAux rest (c :: acc)

/-- Split a raw string into its lines as `doc-utils.ts` does. -/
def splitJsLines (cs : List Char) : List (List Char) :=
  splitJsLinesAux cs []

/-! Embedding of `parseRawDocComment` from `src/doc-utils.ts`. -/

/-- Result of parsing a raw documentation block (`ParsedDoc` in the source):
`description` and `returns` are absent rather than empty, and `params` is
absent when no `@param` entry was captured. -/
structure ParsedDoc where
  description : Option String
  params : Option (List (String × String))
  returns : Option String
  deriving Repr

/-- The test `/^@param\s+/.test(line)`. -/
def isParamTagLine (l : List Char) : Bool :=
  "@param".data.isPrefixOf l &&
    (match l.drop 6 with
     | c :: _ => jsIsSpace c
     | [] => false)

/-- The capture `line.match(/^@param\s+(\w+)\s+(.*)$/)`: the identifier and the
trimmed rest, or nothing when the stricter pattern fails. -/
def paramCapture (l : List Char) : Option (String × String) :=
  if "@param".data.isPrefixOf l then
    match l.drop 6 with
    | c :: rest0 =>
      if jsIsSpace c then
        let rest1 := rest0.dropWhile jsIsSpace
        let ident := rest1.takeWhile isWordChar
        if ident.isEmpty then none
        else
          match rest1.drop ident.length with
          | c2 :: rest2 =>
            if jsIsSpace c2 then
              some (ident.asString, (jsTrimCh (rest2.dropWhile jsIsSpace)).asString)
            else none
          | [] => none
      else none
    | [] => none
  else none

/-- Word boundary after position `n`: end of line or a non-word character. -/
def boundaryAfter (l : List Char) (n : Nat) : Bool :=
  match l.drop n with
  | [] => true
  | c :: _ => !(isWordChar c)

/-- The test `/^@returns?\b/.test(line)`. -/
def isReturnsTagLine (l : List Char) : Bool :=
  ("@returns".data.isPrefixOf l && boundaryAfter l 8) ||
  ("@return".data.isPrefixOf l && boundaryAfter l 7)

/-- Capture the trimmed text after at least one whitespace character starting
at position `n`, as `\s+(.*)$` does on a trimmed line. -/
def tailCapture (l : List Char) (n : Nat) : Option String :=
  match l.drop n with
  | c :: _ =>
    if jsIsSpace c then some ((jsTrimCh ((l.drop n).dropWhile jsIsSpace)).asString)
    else none
  | [] => none

/-- The capture `line.match(/^@returns?\s+(.*)$/)` (the `s?` backtracks exactly
as the two prefix attempts below do). -/
def returnsCapture (l : List Char) : Option String :=
  if "@returns".data.isPrefixOf l && (tailCapture l 8).isSome then tailCapture l 8
  else if "@return".data.isPrefixOf l then tailCapture l 7
  else none

/-- `params[name] = value` on a JS object: replace in place, else append. -/
def upsertParam : List (String × String) → String → String → List (String × String)
  | [], k, v => [(k, v)]
  | (k2, v2) :: rest, k, v =>
    if k2 = k then (k, v) :: rest else (k2, v2) :: upsertParam rest k v

/-- Accumulators of the parse loop: captured params, the collected description
lines, the last `@returns` text. -/
structure ParseAcc where
  params : List (String × String)
  descLines : List (List Char)
  ret : Option String

/-- One classification step of the loop body on a non-empty processed line:
`@param` lines record a parameter, `@return(s)` lines record the returns text,
other `@`-lines are ignored, and everything else joins the description. -/
def classifyLine (l : List Char) (acc : ParseAcc) : ParseAcc :=
  if isParamTagLine l then
    match paramCapture l with
    | some kv => { acc with params := upsertParam acc.params kv.1 kv.2 }
    | none => acc
  else if isReturnsTagLine l then
    match returnsCapture l with
    | some v => { acc with ret := some v }
    | none => acc
  else if l.head? = some '@' then acc
  else { acc with descLines := acc.descLines ++ [l] }

/-- A line qualifies for the description exactly when `classifyLine` pushes it:
not a recognized tag test and not starting with `@`. -/
def isContentLine (l : List Char) : Bool :=
  if isParamTagLine l then false
  else if isReturnsTagLine l then false
  else if l.head? = some '@' then false
  else true

/-- Outcome of the per-line normalization in the loop: the line may be skipped
(before `/**`), empty after stripping (continue or break on `*/`), or carry
processed content (continue or break on `*/`). -/
inductive LineStep where
  | skip
  | emptyCont
  | emptyBreak
  | lineCont (l : List Char)
  | lineBreak (l : List Char)

/-- The per-line normalization of the source loop: wait for `/**` and slice
after it, cut at `*/`, strip the leading `* ` margin, trim. -/
def stepLine (started : Bool) (l : List Char) : LineStep :=
  let start? : Option (List Char) :=
    if started then some l
    else
      match findSub "/**".data l with
      | some idx => some (l.drop (idx + 3))
      | none => none
  match start? with
  | none => .skip
  | some l1 =>
    let endIdx := findSub "*/".data l1
    let l2 :=
      match endIdx with
      | some e => l1.take e
      | none => l1
    let l3 := jsTrimCh (stripStarPrefix l2)
    match l3, endIdx with
    | [], some _ => .emptyBreak
    | [], none => .emptyCont
    | l4, some _ => .lineBreak l4
    | l4, none => .lineCont l4

/-- The main loop of `parseRawDocComment`, folding `classifyLine` over the
lines with the start/termination control flow of the source. -/
def parseLoop : Bool → ParseAcc → List (List Char) → ParseAcc
  | _, acc, [] => acc
  | started, acc, l :: rest =>
    match stepLine started l with
    | .skip => parseLoop false acc rest
    | .emptyCont => parseLoop true acc rest
    | .emptyBreak => acc
    | .lineCont l3 => parseLoop true (classifyLine l3 acc) rest
    | .lineBreak l3 => classifyLine l3 acc

/-- The processed, non-empty lines the loop classifies, in order — the same
control flow as `parseLoop` without the accumulators. -/
def docLinesLoop : Bool → List (List Char) → List (List Char)
  | _, [] => []
  | started, l :: rest =>
    match stepLine started l with
    | .skip => docLinesLoop false rest
    | .emptyCont => docLinesLoop true rest
    | .emptyBreak => []
    | .lineCont l3 => l3 :: docLinesLoop true rest
    | .lineBreak l3 => [l3]

/-- `joined.replace(/\s+\/$/, '')`: drop a trailing `/` preceded by at least
one whitespace character, together with that whitespace. -/
def stripStraySlash (cs : List Char) : List Char :=
  match cs.reverse with
  | '/' :: c :: rest =>
    if jsIsSpace c then ((c :: rest).dropWhile jsIsSpace).reverse
    else cs
  | _ => cs

/-- Embedding of `parseRawDocComment` (`src/doc-utils.ts`, lines 7–46). -/
def parseRawDocComment (raw : String) : ParsedDoc :=
  let acc := parseLoop false ⟨[], [], none⟩ (splitJsLines raw.data)
  let joined := String.intercalate " " (acc.descLines.map List.asString)
  let d := (jsTrimCh (stripStraySlash joined.data)).asString
  { description := if d = "" then none else some d
    params := if acc.params.isEmpty then none else some acc.params
    returns := acc.ret }

/-- The processed lines of a raw block, for stating properties of the loop. -/
def docLinesOf (raw : String) : List (List Char) :=
  docLinesLoop false (splitJsLines raw.data)

/-- The content (non-tag) lines of a raw block, rendered back to strings. -/
def docContentLines (raw : String) : List String :=
  ((docLinesOf raw).filter isContentLine).map List.asString

/-- Render a list of description lines the way the parser does: join with
single spaces, trim a trailing stray slash, absent when empty. -/
def renderDescription (ls : List String) : Option String :=
  let d := (jsTrimCh (stripStraySlash (String.intercalate " " ls).data)).asString
  if d = "" then none else some d

/-! Embedding of the decorator metadata resolution and the registries from
`src/index.ts`. -/

/-- Identity of a declaring class (the `target.constructor` registry key). -/
abbrev ClassId := String

/-- Explicit options of the `tool` decorator (`ToolOptions`). -/
structure ToolOptions where
  name : Option String
  description : Option String
  parameters : Option ZSchema

/-- A resolved tool descriptor (`ToolMetadata`). -/
structure ToolMeta where
  name : String
  description : String
  parameters : ZSchema
  methodName : String
  target : ClassId

/-- Explicit options of the `prompt` decorator (`PromptOptions`; `name` is
mandatory there). -/
structure PromptOptions where
  name : String
  description : Option String
  arguments : Option ZSchema

/-- A stored prompt descriptor (`PromptMetadata = PromptOptions + methodName +
target`). -/
structure PromptMeta where
  name : String
  description : Option String
  arguments : Option ZSchema
  methodName : String
  target : ClassId

/-- A resource URI matcher: exact string or pattern (`string | RegExp`); a
pattern is modelled by its `test` predicate. -/
inductive UriMatcher where
  | str (s : String)
  | pat (test : String → Bool)

/-- Explicit options of the `resource` decorator (`ResourceOptions`). -/
structure ResourceOptions where
  uri : UriMatcher
  name : Option String
  description : Option String
  mimeType : Option String

/-- A stored resource descriptor (`ResourceMetadata = ResourceOptions +
methodName + target`). -/
structure ResourceMeta where
  uri : UriMatcher
  name : Option String
  description : Option String
  mimeType : Option String
  methodName : String
  target : ClassId

/-- The JS `a || b` idiom on an optional string: absent or empty falls back. -/
def jsOrStr (o : Option String) (d : String) : String :=
  match o with
  | some s => if s = "" then d else s
  | none => d

/-- The description-to-schema keyword heuristic (`index.ts` lines 230–233):
first match wins in the order number, boolean/true/false, array/list/items,
else string. -/
def inferParamType (desc : String) : ZSchema :=
  if hasCI desc "number" then .num
  else if hasCI desc "boolean" || hasCI desc "true" || hasCI desc "false" then .bool
  else if hasCI desc "array" || hasCI desc "list" || hasCI desc "items" then .arr .any
  else .str

/-- The inferred object shape built from the captured `@param` entries. -/
def inferShape (ps : List (String × String)) : List (String × ZSchema) :=
  ps.map (fun kv => (kv.1, inferParamType kv.2))

/-- The description inference step (`index.ts` line 225): overwrite the
description only when it may be inferred and the parsed description is a
truthy (present, non-empty) string. -/
def applyDocDescription (needDoc : Bool) (parsedDesc : Option String) (md : ToolMeta) :
    ToolMeta :=
  match parsedDesc with
  | some d =>
    if needDoc then
      if d = "" then md else { md with description := d }
    else md
  | none => md

/-- The parameter inference step (`index.ts` lines 227–238): when parameters
may be inferred and the doc captured params, build the inferred object schema
and install it unless it is empty. -/
def applyDocParams (needDoc : Bool) (parsedParams : Option (List (String × String)))
    (md : ToolMeta) : ToolMeta :=
  if needDoc then
    match parsedParams with
    | some ps =>
      let shape := inferShape ps
      if shape.length = 0 then md else { md with parameters := .obj shape }
    | none => md
  else md

/-- Embedding of the metadata resolution of the `tool` decorator (`index.ts`
lines 184–246). `doc` is the parsed documentation block when the callsite
locator, the file read and the decorator scan all succeed (`none` models any
failure of that best-effort chain, including absence of a doc comment). -/
def resolveToolMeta (options : ToolOptions) (propertyKey : String) (target : ClassId)
    (doc : Option ParsedDoc) : ToolMeta :=
  let metadata : ToolMeta :=
    { name := jsOrStr options.name propertyKey
      description := jsOrStr options.description ""
      parameters := options.parameters.getD .any
      methodName := propertyKey
      target := target }
  let needDocForDescription := options.description.isNone
  let needDocForParams := options.parameters.isNone
  if needDocForDescription || needDocForParams then
    match doc with
    | none => metadata
    | some parsed =>
      applyDocParams needDocForParams parsed.params
        (applyDocDescription needDocForDescription parsed.description metadata)
  else metadata

/-- Association lookup keyed by class. -/
def assocFind {α : Type} : List (ClassId × α) → ClassId → Option α
  | [], _ => none
  | (c2, v) :: rest, c => if c2 = c then some v else assocFind rest c

/-- `getOrCreateMetadata` followed by `push`: append a descriptor to the list
stored for a class, creating the entry if needed. -/
def appendMeta {α : Type} : List (ClassId × List α) → ClassId → α → List (ClassId × List α)
  | [], c, x => [(c, [x])]
  | (c2, xs) :: rest, c, x =>
    if c2 = c then (c2, xs ++ [x]) :: rest
    else (c2, xs) :: appendMeta rest c x

/-- `Map.set` semantics for the instances map. -/
def assocSet {α : Type} : List (ClassId × α) → ClassId → α → List (ClassId × α)
  | [], c, x => [(c, x)]
  | (c2, v) :: rest, c, x =>
    if c2 = c then (c2, x) :: rest
    else (c2, v) :: assocSet rest c x

/-- The three process-wide metadata maps (`toolsMetadata`, `promptsMetadata`,
`resourcesMetadata`), keyed by class in insertion order. -/
structure Registries where
  tools : List (ClassId × List ToolMeta)
  prompts : List (ClassId × List PromptMeta)
  resources : List (ClassId × List ResourceMeta)

/-- The empty registries. -/
def Registries.empty : Registries := ⟨[], [], []⟩

/-- `toolsMetadata.get(constructor) || []`. -/
def getToolsFor (r : Registries) (c : ClassId) : List ToolMeta :=
  (assocFind r.tools c).getD []

/-- `promptsMetadata.get(constructor) || []`. -/
def getPromptsFor (r : Registries) (c : ClassId) : List PromptMeta :=
  (assocFind r.prompts c).getD []

/-- `resourcesMetadata.get(constructor) || []`. -/
def getResourcesFor (r : Registries) (c : ClassId) : List ResourceMeta :=
  (assocFind r.resources c).getD []

/-- The `tool` decorator applied to method `propertyKey` of class `cls`:
resolve the metadata (consulting the parsed doc block when a field may be
inferred) and append it to the tool registry. -/
def toolDecorator (options : ToolOptions) (cls : ClassId) (propertyKey : String)
    (doc : Option ParsedDoc) (regs : Registries) : Registries :=
  { regs with tools := appendMeta regs.tools cls (resolveToolMeta options propertyKey cls doc) }

/-- The `prompt` decorator (`index.ts` lines 260–273): the stored descriptor is
the spread of the options plus `methodName` and `target`; no documentation
machinery is involved. -/
def promptDecorator (options : PromptOptions) (cls : ClassId) (propertyKey : String)
    (regs : Registries) : Registries :=
  let metadata : PromptMeta :=
    ⟨options.name, options.description, options.arguments, propertyKey, cls⟩
  { regs with prompts := appendMeta regs.prompts cls metadata }

/-- The `resource` decorator (`index.ts` lines 278–291): the stored descriptor
is the spread of the options plus `methodName` and `target`; no documentation
machinery is involved. -/
def resourceDecorator (options : ResourceOptions) (cls : ClassId) (propertyKey : String)
    (regs : Registries) : Registries :=
  let metadata : ResourceMeta :=
    ⟨options.uri, options.name, options.description, options.mimeType, propertyKey, cls⟩
  { regs with resources := appendMeta regs.resources cls metadata }

/-! Embedding of the `FastMCP` dispatch layer (`src/index.ts` lines 296–461).
The MCP SDK stores one request handler per request method in a map, so each
`setRequestHandler` call for the same schema replaces the previous handler;
the server state therefore keeps a single active (descriptor, instance) slot
per kind, holding whatever the last `registerTool` / `registerPrompt` /
`registerResource` call installed. -/

/-- A live class instance: its class and its callable methods. A method takes
the single argument object and either returns a value or throws (modelled by
`Except` with the thrown error's message). -/
structure Instance where
  cls : ClassId
  methods : String → Option (JsValue → Except String JsValue)

/-- `instance[methodName](args)`: a missing method is a thrown TypeError. -/
def invokeMethod (inst : Instance) (methodName : String) (args : JsValue) :
    Except String JsValue :=
  match inst.methods methodName with
  | some f => f args
  | none => .error ("instance." ++ methodName ++ " is not a function")

/-- An incoming `tools/call` request: the operation name and the remaining
top-level `params` fields after destructuring `{ name, ...rest }` — the
`arguments` field, when present, is among `rest`. -/
structure CallToolRequest where
  name : String
  rest : List (String × JsValue)

/-- Outcome of the CallTool handler: a successful text content response, an
error-flagged content response, or a thrown error. -/
inductive HandlerOutcome where
  | success (text : String)
  | errorResponse (text : String)
  | thrown (msg : String)
  deriving Repr, DecidableEq

/-- Argument payload resolution (`index.ts` lines 349–354): primary
`request.params.arguments || {}`; fallback to the remaining top-level fields
when that is absent or an empty object. -/
def resolveRawArgs (req : CallToolRequest) : JsValue :=
  let rawArgs : JsValue :=
    match jsLookup "arguments" req.rest with
    | some v => if jsTruthy v then v else .vObj []
    | none => .vObj []
  if (jsTruthy rawArgs = false) ∨ (jsTypeofIsObject rawArgs = true ∧ jsKeysLength rawArgs = 0) then
    match req.rest with
    | [] => rawArgs
    | _ => .vObj req.rest
  else rawArgs

/-- The test `parameters instanceof z.ZodObject && keys(shape).length === 0`. -/
def isEmptyObjectSchema : ZSchema → Bool
  | .obj [] => true
  | _ => false

/-- The test `parameters instanceof z.ZodAny`. -/
def isAnySchema : ZSchema → Bool
  | .any => true
  | _ => false

/-- Argument validation step (`index.ts` lines 355–363): empty object schemas
and the accept-anything schema pass the raw payload through; otherwise zod
parses it. -/
def parseToolArgs (meta : ToolMeta) (rawArgs : JsValue) : Except String JsValue :=
  if isEmptyObjectSchema meta.parameters then .ok rawArgs
  else if isAnySchema meta.parameters then .ok rawArgs
  else zparse meta.parameters rawArgs

/-- Normalization of a tool result to response text (`index.ts` lines
374–380): strings pass through, numbers print in decimal with NaN as "NaN",
null and undefined print literally, everything else is JSON-serialized with a
`String(...)` fallback. -/
def normalizeToolResult : JsValue → String
  | .vStr s => s
  | .vNum (.int i) => toString i
  | .vNum .nan => "NaN"
  | .vNull => "null"
  | .vUndefined => "undefined"
  | v => (jsonStringifyTop v).getD (jsToString v)

/-- The body of the try-block of the CallTool handler: resolve the payload,
validate it, invoke the bound method, normalize the result. An `error` is a
caught exception's message. -/
def callToolCore (meta : ToolMeta) (inst : Instance) (req : CallToolRequest) :
    Except String String :=
  let rawArgs := resolveRawArgs req
  match parseToolArgs meta rawArgs with
  | .error m => .error m
  | .ok parsedArgs =>
    match invokeMethod inst meta.methodName parsedArgs with
    | .error m => .error m
    | .ok result => .ok (normalizeToolResult result)

/-- The CallTool handler closure installed by `registerTool` for one
descriptor/instance pair (`index.ts` lines 346–397): a matching name runs the
guarded pipeline, returning an error-flagged response on any caught failure;
any other name is a thrown not-found error. -/
def callToolHandler (meta : ToolMeta) (inst : Instance) (req : CallToolRequest) :
    HandlerOutcome :=
  if req.name = meta.name then
    match callToolCore meta inst req with
    | .ok text => .success text
    | .error m => .errorResponse ("Error: " ++ m)
  else .thrown ("Tool " ++ req.name ++ " not found")

/-- Outcome of the ReadResource handler: a contents response (uri, mime type,
text — `text` is absent when `JSON.stringify` yields no string) or a thrown
error. -/
inductive ResourceOutcome where
  | contents (uri : String) (mimeType : String) (text : Option String)
  | thrown (msg : String)
  deriving Repr, DecidableEq

/-- URI matching (`index.ts` lines 436–440): exact string equality for string
matchers, pattern test otherwise. -/
def uriMatches (m : UriMatcher) (uri : String) : Bool :=
  match m with
  | .str s => uri == s
  | .pat t => t uri

/-- `typeof result === 'string' ? result : JSON.stringify(result)`. -/
def resourceText : JsValue → Option String
  | .vStr s => some s
  | v => jsonStringifyTop v

/-- The ReadResource handler closure installed by `registerResource` for one
descriptor/instance pair (`index.ts` lines 431–461). -/
def readResourceHandler (meta : ResourceMeta) (inst : Instance) (uri : String) :
    ResourceOutcome :=
  if uriMatches meta.uri uri then
    match invokeMethod inst meta.methodName (.vObj [("uri", .vStr uri)]) with
    | .ok result =>
      .contents uri (jsOrStr meta.mimeType "text/plain") (resourceText result)
    | .error e => .thrown ("Error reading resource " ++ uri ++ ": " ++ e)
  else .thrown ("Resource " ++ uri ++ " not found")

/-- Server state: the bound instances map and the single active handler slot
per request kind (see the section comment above). -/
structure ServerState where
  instances : List (ClassId × Instance)
  activeTool : Option (ToolMeta × Instance)
  activePrompt : Option (PromptMeta × Instance)
  activeResource : Option (ResourceMeta × Instance)

/-- The state of a freshly constructed `FastMCP` server. -/
def ServerState.init : ServerState := ⟨[], none, none, none⟩

/-- `FastMCP.register(instance)` (`index.ts` lines 322–343): record the
instance for its class, then install one handler per descriptor of that class;
each installation replaces the active handler of its kind. -/
def register (regs : Registries) (inst : Instance) (st : ServerState) : ServerState :=
  let st1 := { st with instances := assocSet st.instances inst.cls inst }
  let st2 := (getToolsFor regs inst.cls).foldl
    (fun s m => { s with activeTool := some (m, inst) }) st1
  let st3 := (getPromptsFor regs inst.cls).foldl
    (fun s m => { s with activePrompt := some (m, inst) }) st2
  (getResourcesFor regs inst.cls).foldl
    (fun s m => { s with activeResource := some (m, inst) }) st3

/-- Dispatch an incoming `tools/call` request against the active handler
(`none` when no handler was ever installed). -/
def dispatchCallTool (st : ServerState) (req : CallToolRequest) : Option HandlerOutcome :=
  st.activeTool.map (fun mi => callToolHandler mi.1 mi.2 req)

/-! Concrete scenario mirroring the repository's demo: a `SimpleMcp` class
declaring an `add` tool and then a `product` tool, registered on one
instance. -/

/-- Read an integer field of the argument object. -/
def numField (v : JsValue) (k : String) : Option Int :=
  match v with
  | .vObj fs =>
    match jsLookup k fs with
    | some (.vNum (.int i)) => some i
    | _ => none
  | _ => none

/-- The `add` method: returns `a + b`. -/
def addImpl (v : JsValue) : Except String JsValue :=
  match numField v "a", numField v "b" with
  | some a, some b => .ok (.vNum (.int (a + b)))
  | _, _ => .error "invalid arguments"

/-- The `multiply` method: returns `a * b`. -/
def multiplyImpl (v : JsValue) : Except String JsValue :=
  match numField v "a", numField v "b" with
  | some a, some b => .ok (.vNum (.int (a * b)))
  | _, _ => .error "invalid arguments"

/-- A method that returns its argument object unchanged. -/
def echoImpl (v : JsValue) : Except String JsValue := .ok v

/-- Explicit options of the `add` tool: name, description and schema all
explicit. -/
def addOpts : ToolOptions :=
  { name := some "add"
    description := some "Add two numbers"
    parameters := some (.obj [("a", .num), ("b", .num)]) }

/-- Explicit options of the `product` tool (explicit name and schema, like the
demo's second tool). -/
def productOpts : ToolOptions :=
  { name := some "product"
    description := some "Multiply two numbers"
    parameters := some (.obj [("a", .num), ("b", .num)]) }

/-- Registries after the two `tool` decorators of `SimpleMcp` have run, in
declaration order (`add` first, then `product`). -/
def simpleRegs : Registries :=
  toolDecorator productOpts "SimpleMcp" "multiply" none
    (toolDecorator addOpts "SimpleMcp" "add" none Registries.empty)

/-- The registered `SimpleMcp` instance. -/
def simpleInst : Instance :=
  { cls := "SimpleMcp"
    methods := fun m =>
      if m = "add" then some addImpl
      else if m = "multiply" then some multiplyImpl
      else none }

/-- Server state after `server.register(new SimpleMcp())`. -/
def simpleState : ServerState :=
  register simpleRegs simpleInst ServerState.init

/-- A `tools/call` request for `add` with arguments `{a: 2, b: 3}`. -/
def addReq : CallToolRequest :=
  { name := "add"
    rest := [("arguments", .vObj [("a", .vNum (.int 2)), ("b", .vNum (.int 3))])] }

/-- A `tools/call` request for `product` with arguments `{a: 2, b: 3}`. -/
def productReq : CallToolRequest :=
  { name := "product"
    rest := [("arguments", .vObj [("a", .vNum (.int 2)), ("b", .vNum (.int 3))])] }

/-- Server state of a server holding only the `add` tool (the round-trip
scenario of the spec). -/
def addOnlyState : ServerState :=
  register (toolDecorator addOpts "MathTools" "add" none Registries.empty)
    { cls := "MathTools"
      methods := fun m => if m = "add" then some addImpl else none }
    ServerState.init

/-- The resolved `add` descriptor owned by `MathTools`. -/
def addMeta : ToolMeta := resolveToolMeta addOpts "add" "MathTools" none

/-- The `MathTools` instance of the round-trip scenario. -/
def addInst : Instance :=
  { cls := "MathTools"
    methods := fun m => if m = "add" then some addImpl else none }

/-- A request naming an unregistered tool. -/
def subReq : CallToolRequest :=
  { name := "sub"
    rest := [("arguments", .vObj [("a", .vNum (.int 2)), ("b", .vNum (.int 3))])] }

/-- A request for `add` with a schema-violating payload (`a` is a string). -/
def badAddReq : CallToolRequest :=
  { name := "add"
    rest := [("arguments", .vObj [("a", .vStr "x"), ("b", .vNum (.int 3))])] }

/-- A request for `echo` with no `arguments` field and extra top-level
fields `{foo: 1, bar: 2}`. -/
def fooBarReq : CallToolRequest :=
  { name := "echo"
    rest := [("foo", .vNum (.int 1)), ("bar", .vNum (.int 2))] }

/-- An `echo` tool descriptor with the accept-anything default schema. -/
def echoMeta : ToolMeta :=
  resolveToolMeta { name := some "echo", description := some "echo", parameters := none }
    "echo" "EchoTools" none

/-- The instance carrying the `echo` method. -/
def echoInst : Instance :=
  { cls := "EchoTools"
    methods := fun m => if m = "echo" then some echoImpl else none }

/-- The `test` predicate of the pattern `/file:\/\/(.+)/`: some position
carries the substring `file://` followed by at least one non-line-terminator
character. -/
def filePatternTestCh (cs : List Char) : Bool :=
  match cs with
  | [] => false
  | _ :: rest =>
    ("file://".data.isPrefixOf cs &&
      (match cs.drop 7 with
       | c :: _ => !(c = '\n' || c = '\r')
       | [] => false)) || filePatternTestCh rest

/-- String version of the `file://(.+)` pattern test. -/
def filePatternTest (u : String) : Bool := filePatternTestCh u.data

/-- A resource registered with the `file://(.+)` pattern matcher and no
explicit mime type. -/
def fileResMeta : ResourceMeta :=
  { uri := .pat filePatternTest
    name := none
    description := none
    mimeType := none
    methodName := "read"
    target := "Res" }

/-- The instance carrying the resource's `read` method, which returns a fixed
string. -/
def fileResInst : Instance :=
  { cls := "Res"
    methods := fun m => if m = "read" then some (fun _ => .ok (.vStr "hello")) else none }

/-! Helper lemmas. -/

/-- `classifyLine` extends the description lines exactly by the content
lines. -/
theorem classifyLine_descLines (l : List Char) (acc : ParseAcc) :
    (classifyLine l acc).descLines =
      acc.descLines ++ (if isContentLine l then [l] else []) := by
  unfold classifyLine isContentLine
  cases hp : isParamTagLine l with
  | true => cases hc : paramCapture l <;> simp
  | false =>
    cases hr : isReturnsTagLine l with
    | true => cases hc : returnsCapture l <;> simp
    | false => by_cases ha : l.head? = some '@' <;> simp [ha]

/-- The description accumulator of the parse loop collects exactly the
content lines among the processed lines. -/
theorem parseLoop_descLines (lines : List (List Char)) :
    ∀ (started : Bool) (acc : ParseAcc),
      (parseLoop started acc lines).descLines =
        acc.descLines ++ (docLinesLoop started lines).filter isContentLine := by
  induction lines with
  | nil => intro started acc; simp [parseLoop, docLinesLoop]
  | cons l rest ih =>
    intro started acc
    cases hst : stepLine started l with
    | skip => simp [parseLoop, docLinesLoop, hst, ih]
    | emptyCont => simp [parseLoop, docLinesLoop, hst, ih]
    | emptyBreak => simp [parseLoop, docLinesLoop, hst]
    | lineCont l3 =>
      simp only [parseLoop, docLinesLoop, hst, ih, classifyLine_descLines,
        List.filter_cons]
      by_cases hc : isContentLine l3 <;> simp [hc]
    | lineBreak l3 =>
      simp only [parseLoop, docLinesLoop, hst, classifyLine_descLines,
        List.filter_cons]
      by_cases hc : isContentLine l3 <;> simp [hc]

/-- The parsed description is the rendering of the content lines of the
block. -/
theorem parse_description_eq (raw : String) :
    (parseRawDocComment raw).description = renderDescription (docContentLines raw) := by
  unfold parseRawDocComment renderDescription docContentLines docLinesOf
  simp [parseLoop_descLines]

/-- The description inference step never touches the name. -/
theorem applyDocDescription_name (b : Bool) (d : Option String) (md : ToolMeta) :
    (applyDocDescription b d md).name = md.name := by
  cases d with
  | none => rfl
  | some s =>
    cases b with
    | false => rfl
    | true => by_cases hs : s = "" <;> simp [applyDocDescription, hs]

/-- The parameter inference step never touches the name. -/
theorem applyDocParams_name (b : Bool) (p : Option (List (String × String)))
    (md : ToolMeta) : (applyDocParams b p md).name = md.name := by
  cases b with
  | false => rfl
  | true =>
    cases p with
    | none => rfl
    | some ps => by_cases hl : (inferShape ps).length = 0 <;> simp [applyDocParams, hl]

/-- The description inference step never touches the parameters. -/
theorem applyDocDescription_parameters (b : Bool) (d : Option String) (md : ToolMeta) :
    (applyDocDescription b d md).parameters = md.parameters := by
  cases d with
  | none => rfl
  | some s =>
    cases b with
    | false => rfl
    | true => by_cases hs : s = "" <;> simp [applyDocDescription, hs]

/-- The parameter inference step never touches the description. -/
theorem applyDocParams_description (b : Bool) (p : Option (List (String × String)))
    (md : ToolMeta) : (applyDocParams b p md).description = md.description := by
  cases b with
  | false => rfl
  | true =>
    cases p with
    | none => rfl
    | some ps => by_cases hl : (inferShape ps).length = 0 <;> simp [applyDocParams, hl]

/-- With inference disabled the description step is the identity. -/
theorem applyDocDescription_false (d : Option String) (md : ToolMeta) :
    applyDocDescription false d md = md := by
  cases d <;> rfl

/-- With inference disabled the parameter step is the identity. -/
theorem applyDocParams_false (p : Option (List (String × String))) (md : ToolMeta) :
    applyDocParams false p md = md := rfl

/-- With an absent parsed description the description step is the identity. -/
theorem applyDocDescription_none (b : Bool) (md : ToolMeta) :
    applyDocDescription b none md = md := rfl

/-- A raw block with prose both before and after an `@param` line. -/
def c4Raw : String :=
  "/**\n * Summary.\n * @param a x\n * trailing\n */"

/-- C4 counterexample: on a block whose `@param` line is followed by further
prose, the parsed description is "Summary. trailing" — the post-tag content
line joins the description, so the description is not the pre-tag content
"Summary." as the claim states. -/
theorem spec_c4_counterexample :
    (parseRawDocComment c4Raw).description = some "Summary. trailing" ∧
      (parseRawDocComment c4Raw).description ≠ some "Summary." := by
  constructor
  · rfl
  · decide

/-- C4 (amended): parse yields as description exactly the non-empty content
lines that do not start with an at-sign — wherever they appear in the block,
before or after tag lines — joined with single spaces, with a trailing stray
slash trimmed, and absent when there are none. -/
theorem spec_c4_amended (raw : String) :
    (parseRawDocComment raw).description = renderDescription (docContentLines raw) :=
  parse_description_eq raw

/-- A tag-only line is not a content line. -/
theorem isContentLine_of_tag (l : List Char)
    (h : isParamTagLine l = true ∨ isReturnsTagLine l = true) :
    isContentLine l = false := by
  unfold isContentLine
  rcases h with h | h <;> simp [h]

/-- C5: a documentation block whose processed lines are all `@param` or
`@returns` tag lines yields an absent description (not an empty string), and
the resolver's default then makes the final resolved description the empty
string whenever no explicit description was given. -/
theorem spec_c5 (raw : String)
    (h : ∀ l ∈ docLinesOf raw, isParamTagLine l = true ∨ isReturnsTagLine l = true) :
    (parseRawDocComment raw).description = none ∧
      ∀ (opts : ToolOptions) (pk : String) (cls : ClassId),
        opts.description = none →
        (resolveToolMeta opts pk cls (some (parseRawDocComment raw))).description = "" := by
  have hfilter : (docLinesOf raw).filter isContentLine = [] := by
    rw [List.filter_eq_nil_iff]
    intro l hl
    simp [isContentLine_of_tag l (h l hl)]
  have hdesc : (parseRawDocComment raw).description = none := by
    rw [parse_description_eq]
    unfold docContentLines renderDescription
    rw [hfilter]
    rfl
  refine ⟨hdesc, ?_⟩
  intro opts pk cls hod
  have hn : opts.description.isNone = true := by rw [hod]; rfl
  unfold resolveToolMeta
  dsimp only
  simp only [hn, hod, Option.isNone_none, Bool.true_or, if_true, hdesc,
    applyDocParams_description, applyDocDescription_none, jsOrStr]

/-- A raw block with only tag lines and no prose. -/
def c5Raw : String :=
  "/**\n * @param a a number\n * @returns the sum\n */"

/-- Witness for C5 at a concrete tag-only block: description parses to absent
and resolves to the empty string. -/
theorem spec_c5_witness :
    (parseRawDocComment c5Raw).description = none ∧
      (resolveToolMeta ⟨none, none, none⟩ "m" "C" (some (parseRawDocComment c5Raw))).description
        = "" := by
  have h := spec_c5 c5Raw (by decide)
  exact ⟨h.1, h.2 ⟨none, none, none⟩ "m" "C" rfl⟩

/-- The resolved name is always `options.name || propertyKey`, independent of
the documentation. -/
theorem resolveToolMeta_name (opts : ToolOptions) (pk : String) (cls : ClassId)
    (doc : Option ParsedDoc) :
    (resolveToolMeta opts pk cls doc).name = jsOrStr opts.name pk := by
  unfold resolveToolMeta
  dsimp only
  split
  · cases doc with
    | none => rfl
    | some parsed => rw [applyDocParams_name, applyDocDescription_name]
  · rfl

/-- With an explicit description the resolved description is that value
verbatim. -/
theorem resolveToolMeta_description_explicit (opts : ToolOptions) (pk : String)
    (cls : ClassId) (doc : Option ParsedDoc) (s : String) (h : opts.description = some s) :
    (resolveToolMeta opts pk cls doc).description = s := by
  have hjs : jsOrStr (some s) "" = s := by
    by_cases hse : s = "" <;> simp [jsOrStr, hse]
  have hn : opts.description.isNone = false := by rw [h]; rfl
  unfold resolveToolMeta
  dsimp only
  rw [h, hn] at *
  split
  · cases doc with
    | none => simp [hjs]
    | some parsed =>
      rw [applyDocParams_description, applyDocDescription_false]
      simp [hjs]
  · simp [hjs]

/-- With an explicit parameter schema the resolved schema is that value
verbatim. -/
theorem resolveToolMeta_parameters_explicit (opts : ToolOptions) (pk : String)
    (cls : ClassId) (doc : Option ParsedDoc) (sch : ZSchema) (h : opts.parameters = some sch) :
    (resolveToolMeta opts pk cls doc).parameters = sch := by
  unfold resolveToolMeta
  dsimp only
  rw [h]
  simp only [Option.isNone_some, Bool.or_false]
  split
  · cases doc with
    | none => rfl
    | some parsed =>
      dsimp only
      rw [applyDocParams_false, applyDocDescription_parameters]
      rfl
  · rfl

/-- C2 (amended): explicit description and parameter schema are used verbatim
and documentation is never consulted for them; the name is taken from the
explicit option when it is a non-empty string and otherwise — explicit name
absent or the empty string — defaults to the method's own name; the name never
depends on documentation. -/
theorem spec_c2_amended (opts : ToolOptions) (pk : String) (cls : ClassId)
    (doc : Option ParsedDoc) :
    (∀ s, opts.description = some s → (resolveToolMeta opts pk cls doc).description = s) ∧
    (∀ sch, opts.parameters = some sch → (resolveToolMeta opts pk cls doc).parameters = sch) ∧
    (∀ n, opts.name = some n → n ≠ "" → (resolveToolMeta opts pk cls doc).name = n) ∧
    ((opts.name = none ∨ opts.name = some "") → (resolveToolMeta opts pk cls doc).name = pk) ∧
    (resolveToolMeta opts pk cls doc).name = (resolveToolMeta opts pk cls none).name := by
  refine ⟨?_, ?_, ?_, ?_, ?_⟩
  · intro s hs; exact resolveToolMeta_description_explicit opts pk cls doc s hs
  · intro sch hs; exact resolveToolMeta_parameters_explicit opts pk cls doc sch hs
  · intro n hn hne
    rw [resolveToolMeta_name, hn]
    simp [jsOrStr, hne]
  · intro h
    rw [resolveToolMeta_name]
    rcases h with h | h <;> simp [h, jsOrStr]
  · rw [resolveToolMeta_name, resolveToolMeta_name]

/-- Witness for C2 at concrete inputs: explicit fields win over a present doc
block, and an absent name falls back to the method name. -/
theorem spec_c2_witness :
    (resolveToolMeta ⟨some "nm", some "dsc", some .str⟩ "m" "C"
        (some ⟨some "docdesc", some [("a", "number")], none⟩)).description = "dsc" ∧
    (resolveToolMeta ⟨some "nm", some "dsc", some .str⟩ "m" "C"
        (some ⟨some "docdesc", some [("a", "number")], none⟩)).parameters = .str ∧
    (resolveToolMeta ⟨some "nm", some "dsc", some .str⟩ "m" "C"
        (some ⟨some "docdesc", some [("a", "number")], none⟩)).name = "nm" ∧
    (resolveToolMeta ⟨none, some "dsc", some .str⟩ "m" "C" none).name = "m" := by
  refine ⟨(spec_c2_amended _ "m" "C" _).1 "dsc" rfl,
    (spec_c2_amended _ "m" "C" _).2.1 .str rfl,
    (spec_c2_amended _ "m" "C" _).2.2.1 "nm" rfl (by decide),
    (spec_c2_amended _ "m" "C" _).2.2.2.1 (Or.inl rfl)⟩

/-- C2 counterexample: with the explicit (non-absent) name "" the resolved
name is the method's own name, not the explicit value — the JS fallback
`options.name || propertyKey` treats the empty string as absent. -/
theorem spec_c2_counterexample :
    (resolveToolMeta ⟨some "", some "d", some .str⟩ "myMethod" "C" none).name = "myMethod" ∧
      (resolveToolMeta ⟨some "", some "d", some .str⟩ "myMethod" "C" none).name ≠ "" := by
  constructor
  · rfl
  · intro hcontra
    exact absurd hcontra (by decide)

/-- C3: the inferred field type of a captured `@param` entry is determined by
case-insensitive substring match on its description in the fixed priority
order number, then boolean/true/false, then array/list/items, then string;
in particular a match on "number" wins even when array keywords are also
present; every inferred field is required (never optional); and when
parameters may be inferred from a non-empty capture set, the resolved schema
is the object of the per-entry inferred types. -/
theorem spec_c3 (desc : String) :
    (hasCI desc "number" = true → inferParamType desc = .num) ∧
    (hasCI desc "number" = false →
      (hasCI desc "boolean" = true ∨ hasCI desc "true" = true ∨ hasCI desc "false" = true) →
      inferParamType desc = .bool) ∧
    (hasCI desc "number" = false → hasCI desc "boolean" = false → hasCI desc "true" = false →
      hasCI desc "false" = false →
      (hasCI desc "array" = true ∨ hasCI desc "list" = true ∨ hasCI desc "items" = true) →
      inferParamType desc = .arr .any) ∧
    (hasCI desc "number" = false → hasCI desc "boolean" = false → hasCI desc "true" = false →
      hasCI desc "false" = false → hasCI desc "array" = false → hasCI desc "list" = false →
      hasCI desc "items" = false → inferParamType desc = .str) ∧
    isOptionalSchema (inferParamType desc) = false ∧
    (∀ (opts : ToolOptions) (pk : String) (cls : ClassId) (parsed : ParsedDoc)
        (ps : List (String × String)),
      opts.parameters = none → parsed.params = some ps → ps ≠ [] →
      (resolveToolMeta opts pk cls (some parsed)).parameters = .obj (inferShape ps) ∧
        ∀ p, (p, desc) ∈ ps → (p, inferParamType desc) ∈ inferShape ps) := by
  refine ⟨?_, ?_, ?_, ?_, ?_, ?_⟩
  · intro h1; simp [inferParamType, h1]
  · intro h1 h2
    rcases h2 with h2 | h2 | h2 <;> simp [inferParamType, h1, h2]
  · intro h1 h2 h3 h4 h5
    rcases h5 with h5 | h5 | h5 <;> simp [inferParamType, h1, h2, h3, h4, h5]
  · intro h1 h2 h3 h4 h5 h6 h7
    simp [inferParamType, h1, h2, h3, h4, h5, h6, h7]
  · unfold inferParamType
    split
    · rfl
    · split
      · rfl
      · split <;> rfl
  · intro opts pk cls parsed ps hop hpp hne
    have hlen : ¬((inferShape ps).length = 0) := by
      unfold inferShape
      simp only [List.length_map, List.length_eq_zero]
      exact hne
    constructor
    · have hn : opts.parameters.isNone = true := by rw [hop]; rfl
      unfold resolveToolMeta
      dsimp only
      simp only [hn, Bool.or_true, if_true, hpp]
      unfold applyDocParams
      simp [hlen]
    · intro p hmem
      unfold inferShape
      exact List.mem_map_of_mem (fun kv => (kv.1, inferParamType kv.2)) hmem

/-- Witness for C3 at concrete descriptions: mixed "number"/"array" input
infers numeric, boolean keywords infer boolean, list keywords infer the
array type, plain text infers string, and the resolver installs the inferred
object schema. -/
theorem spec_c3_witness :
    inferParamType "a number array" = .num ∧
    inferParamType "it is TRUE" = .bool ∧
    inferParamType "a list of things" = .arr .any ∧
    inferParamType "plain text" = .str ∧
    (resolveToolMeta ⟨none, none, none⟩ "m" "C"
        (some ⟨none, some [("a", "a number array")], none⟩)).parameters =
      .obj (inferShape [("a", "a number array")]) ∧
    ("a", inferParamType "a number array") ∈ inferShape [("a", "a number array")] := by
  have h6 := (spec_c3 "a number array").2.2.2.2.2 ⟨none, none, none⟩ "m" "C"
    ⟨none, some [("a", "a number array")], none⟩ [("a", "a number array")] rfl rfl
    (by simp)
  exact ⟨(spec_c3 "a number array").1 (by decide),
    (spec_c3 "it is TRUE").2.1 (by decide) (Or.inr (Or.inl (by decide))),
    (spec_c3 "a list of things").2.2.1 (by decide) (by decide) (by decide) (by decide)
      (Or.inr (Or.inl (by decide))),
    (spec_c3 "plain text").2.2.2.1 (by decide) (by decide) (by decide) (by decide)
      (by decide) (by decide) (by decide),
    h6.1,
    h6.2 "a" (by simp)⟩

/-- C6: tool results normalize to text by the exact source rules — strings
pass through, integers print in decimal, NaN prints as "NaN", null and
undefined print literally, and any other value is JSON-serialized with a
`String(...)` fallback; and the registered `add` tool invoked with
`{a: 2, b: 3}` round-trips to the successful text response "5". -/
theorem spec_c6 :
    (∀ s, normalizeToolResult (.vStr s) = s) ∧
    (∀ i : Int, normalizeToolResult (.vNum (.int i)) = toString i) ∧
    (normalizeToolResult (.vNum .nan) = "NaN") ∧
    (normalizeToolResult .vNull = "null") ∧
    (normalizeToolResult .vUndefined = "undefined") ∧
    (∀ b, normalizeToolResult (.vBool b) =
      (jsonStringifyTop (.vBool b)).getD (jsToString (.vBool b))) ∧
    (∀ fs, normalizeToolResult (.vObj fs) =
      (jsonStringifyTop (.vObj fs)).getD (jsToString (.vObj fs))) ∧
    (∀ es, normalizeToolResult (.vArr es) =
      (jsonStringifyTop (.vArr es)).getD (jsToString (.vArr es))) ∧
    dispatchCallTool addOnlyState addReq = some (.success "5") := by
  refine ⟨fun s => rfl, fun i => rfl, rfl, rfl, rfl, fun b => rfl, fun fs => rfl,
    fun es => rfl, ?_⟩
  have hname : addMeta.name = "add" := rfl
  have hcore : callToolCore addMeta addInst addReq = .ok "5" := by
    simp [callToolCore, resolveRawArgs, parseToolArgs, zparse, zparseFields, jsLookup,
      isOptionalSchema, isEmptyObjectSchema, isAnySchema, addMeta, addInst, addReq, addOpts,
      resolveToolMeta, jsOrStr, invokeMethod, addImpl, numField, normalizeToolResult,
      jsTruthy, jsTypeofIsObject, jsKeysLength]
    rfl
  have hdisp : dispatchCallTool addOnlyState addReq =
      some (callToolHandler addMeta addInst addReq) := rfl
  rw [hdisp]
  simp [callToolHandler, hname, hcore, show addReq.name = "add" from rfl]

/-- C7: within the tool-call handler, any failure during argument validation
or method invocation is caught and returned as an error-flagged content
response carrying the failure's message, and a matching request never throws;
a request whose name does not match the descriptor is a thrown not-found
error instead. -/
theorem spec_c7 (meta : ToolMeta) (inst : Instance) (req : CallToolRequest) :
    (req.name ≠ meta.name →
      callToolHandler meta inst req = .thrown ("Tool " ++ req.name ++ " not found")) ∧
    (∀ m, req.name = meta.name → callToolCore meta inst req = .error m →
      callToolHandler meta inst req = .errorResponse ("Error: " ++ m)) ∧
    (∀ t, req.name = meta.name → callToolCore meta inst req = .ok t →
      callToolHandler meta inst req = .success t) ∧
    (req.name = meta.name → ∀ m, callToolHandler meta inst req ≠ .thrown m) := by
  refine ⟨?_, ?_, ?_, ?_⟩
  · intro hne
    unfold callToolHandler
    simp [hne]
  · intro m heq hcore
    unfold callToolHandler
    simp [heq, hcore]
  · intro t heq hcore
    unfold callToolHandler
    simp [heq, hcore]
  · intro heq m
    unfold callToolHandler
    simp only [heq, if_pos rfl]
    cases hcore : callToolCore meta inst req <;> simp

/-- Witness for C7: an unregistered name is a thrown not-found error while a
schema-violating payload for the registered tool is an error-flagged
response. -/
theorem spec_c7_witness :
    callToolHandler addMeta addInst subReq = .thrown ("Tool " ++ "sub" ++ " not found") ∧
    callToolHandler addMeta addInst badAddReq =
      .errorResponse ("Error: " ++ "Expected number") := by
  have hcore : callToolCore addMeta addInst badAddReq = .error "Expected number" := by
    simp [callToolCore, resolveRawArgs, parseToolArgs, zparse, zparseFields, jsLookup,
      isOptionalSchema, isEmptyObjectSchema, isAnySchema, addMeta, addInst, badAddReq, addOpts,
      resolveToolMeta, jsOrStr, invokeMethod, addImpl, numField, normalizeToolResult,
      jsTruthy, jsTypeofIsObject, jsKeysLength]
  exact ⟨(spec_c7 addMeta addInst subReq).1 (by decide),
    (spec_c7 addMeta addInst badAddReq).2.1 "Expected number" rfl hcore⟩

/-- C8: when the `arguments` field is absent or an empty object and other
top-level fields remain besides the operation name, the resolved argument
payload is exactly the object of those remaining fields; pass-through schemas
(empty object schema or accept-anything) hand that payload unchanged to the
method; concretely, a request with no `arguments` and top-level
`{foo: 1, bar: 2}` invokes the echo method with `{foo: 1, bar: 2}`. -/
theorem spec_c8 (req : CallToolRequest) :
    ((jsLookup "arguments" req.rest = none ∨ jsLookup "arguments" req.rest = some (.vObj [])) →
      req.rest ≠ [] → resolveRawArgs req = .vObj req.rest) ∧
    (∀ meta : ToolMeta, (meta.parameters = .obj [] ∨ meta.parameters = .any) →
      parseToolArgs meta (.vObj req.rest) = .ok (.vObj req.rest)) ∧
    callToolHandler echoMeta echoInst fooBarReq = .success "\x7b\"foo\":1,\"bar\":2\x7d" := by
  refine ⟨?_, ?_, rfl⟩
  · intro hargs hne
    unfold resolveRawArgs
    rcases hargs with hargs | hargs <;>
      · rw [hargs]
        dsimp only
        simp only [jsTruthy, jsTypeofIsObject, jsKeysLength, List.length_nil]
        cases hr : req.rest with
        | nil => exact absurd hr hne
        | cons x rest => simp
  · intro meta hsch
    rcases hsch with hsch | hsch <;> simp [parseToolArgs, isEmptyObjectSchema, isAnySchema, hsch]

/-- Witness for C8 at the concrete fallback request: the payload passed on is
the remaining top-level fields. -/
theorem spec_c8_witness :
    resolveRawArgs fooBarReq = .vObj [("foo", .vNum (.int 1)), ("bar", .vNum (.int 2))] ∧
    parseToolArgs echoMeta (.vObj fooBarReq.rest) = .ok (.vObj fooBarReq.rest) := by
  exact ⟨(spec_c8 fooBarReq).1 (Or.inl rfl) (by simp [fooBarReq]),
    (spec_c8 fooBarReq).2.1 echoMeta (Or.inr rfl)⟩

/-- C9: the requested URI is matched by exact string equality for string
matchers and by the pattern test for pattern matchers; on a match the bound
method is invoked with an argument object carrying exactly the requested URI
and its result is wrapped with the descriptor's mime type, defaulting to
"text/plain" via the source's `mimeType || "text/plain"` idiom (absent or
empty both default); a non-matching URI is a thrown not-found error. -/
theorem spec_c9 (meta : ResourceMeta) (inst : Instance) (uri : String) :
    (uriMatches meta.uri uri = false →
      readResourceHandler meta inst uri = .thrown ("Resource " ++ uri ++ " not found")) ∧
    (∀ r, uriMatches meta.uri uri = true →
      invokeMethod inst meta.methodName (.vObj [("uri", .vStr uri)]) = .ok r →
      readResourceHandler meta inst uri =
        .contents uri (jsOrStr meta.mimeType "text/plain") (resourceText r)) ∧
    (∀ e, uriMatches meta.uri uri = true →
      invokeMethod inst meta.methodName (.vObj [("uri", .vStr uri)]) = .error e →
      readResourceHandler meta inst uri =
        .thrown ("Error reading resource " ++ uri ++ ": " ++ e)) ∧
    (∀ s, meta.uri = .str s → uriMatches meta.uri uri = (uri == s)) ∧
    (∀ t, meta.uri = .pat t → uriMatches meta.uri uri = t uri) := by
  refine ⟨?_, ?_, ?_, ?_, ?_⟩
  · intro hm
    unfold readResourceHandler
    simp [hm]
  · intro r hm hinv
    unfold readResourceHandler
    simp [hm, hinv]
  · intro e hm hinv
    unfold readResourceHandler
    simp [hm, hinv]
  · intro s hs
    rw [hs]
    rfl
  · intro t ht
    rw [ht]
    rfl

/-- Witness for C9: the `file://(.+)` pattern resource matches
`file:///tmp/x.txt`, is invoked with that exact URI, and wraps its result with
the default mime type; a non-matching URI is a thrown not-found error. -/
theorem spec_c9_witness :
    readResourceHandler fileResMeta fileResInst "file:///tmp/x.txt" =
      .contents "file:///tmp/x.txt" "text/plain" (some "hello") ∧
    readResourceHandler fileResMeta fileResInst "nope" =
      .thrown ("Resource " ++ "nope" ++ " not found") := by
  exact ⟨(spec_c9 fileResMeta fileResInst "file:///tmp/x.txt").2.1 (.vStr "hello") rfl rfl,
    (spec_c9 fileResMeta fileResInst "nope").1 rfl⟩

/-- Append followed by class lookup: the class's descriptor list grows by
exactly the appended element. -/
theorem assocFind_appendMeta {α : Type} (m : List (ClassId × List α)) (c : ClassId) (x : α) :
    (assocFind (appendMeta m c x) c).getD [] = (assocFind m c).getD [] ++ [x] := by
  induction m with
  | nil => simp [appendMeta, assocFind]
  | cons hd tl ih =>
    obtain ⟨c2, xs⟩ := hd
    by_cases hc : c2 = c
    · simp [appendMeta, assocFind, hc]
    · simp [appendMeta, assocFind, hc, ih]

/-- C10: the prompt and resource decorators store the explicit options
verbatim plus only the method name and the owner class — absent fields stay
absent, nothing is inferred from documentation, and the other registries are
untouched. -/
theorem spec_c10 (popts : PromptOptions) (ropts : ResourceOptions) (cls : ClassId)
    (key : String) (regs : Registries) :
    getPromptsFor (promptDecorator popts cls key regs) cls =
      getPromptsFor regs cls ++ [⟨popts.name, popts.description, popts.arguments, key, cls⟩] ∧
    (promptDecorator popts cls key regs).tools = regs.tools ∧
    (promptDecorator popts cls key regs).resources = regs.resources ∧
    getResourcesFor (resourceDecorator ropts cls key regs) cls =
      getResourcesFor regs cls ++
        [⟨ropts.uri, ropts.name, ropts.description, ropts.mimeType, key, cls⟩] ∧
    (resourceDecorator ropts cls key regs).tools = regs.tools ∧
    (resourceDecorator ropts cls key regs).prompts = regs.prompts := by
  refine ⟨?_, rfl, rfl, ?_, rfl, rfl⟩
  · unfold getPromptsFor promptDecorator
    exact assocFind_appendMeta regs.prompts cls _
  · unfold getResourcesFor resourceDecorator
    exact assocFind_appendMeta regs.resources cls _

/-- C1 does not hold on the code: with the demo class `SimpleMcp` declaring
the tools `add` then `product` and a bound instance, the `add` descriptor is
in the registry and its owner class has a bound instance, yet dispatching a
request for `add` is a thrown "Tool add not found" — the handler installed
last closes over only the `product` descriptor, because each `registerTool`
call replaces the single CallTool handler and the handler body does not
re-scan the registry. The same state dispatches `product` successfully. -/
theorem spec_c1_code_bug :
    (getToolsFor simpleRegs "SimpleMcp").map ToolMeta.name = ["add", "product"] ∧
    (assocFind simpleState.instances "SimpleMcp").isSome = true ∧
    dispatchCallTool simpleState addReq = some (.thrown "Tool add not found") ∧
    dispatchCallTool simpleState productReq = some (.success "6") := by
  have hname : (resolveToolMeta productOpts "multiply" "SimpleMcp" none).name = "product" := rfl
  have hcore : callToolCore (resolveToolMeta productOpts "multiply" "SimpleMcp" none)
      simpleInst productReq = .ok "6" := by
    simp [callToolCore, resolveRawArgs, parseToolArgs, zparse, zparseFields, jsLookup,
      isOptionalSchema, isEmptyObjectSchema, isAnySchema, simpleInst, productReq, productOpts,
      resolveToolMeta, jsOrStr, invokeMethod, multiplyImpl, numField, normalizeToolResult,
      jsTruthy, jsTypeofIsObject, jsKeysLength]
    rfl
  have hdisp : dispatchCallTool simpleState productReq =
      some (callToolHandler (resolveToolMeta productOpts "multiply" "SimpleMcp" none)
        simpleInst productReq) := rfl
  refine ⟨rfl, rfl, rfl, ?_⟩
  rw [hdisp]
  simp [callToolHandler, hname, hcore, show productReq.name = "product" from rfl]

end Fastmcp
